import Mathlib

/-!
# Verification of the Maxwell-Demon windowed metrics engine

Shallow embedding of the core modules of the `maxwell_demon` package:

* `src/maxwell_demon/analyzer.py` — window segmentation (`_iter_window_tokens`),
  per-window metric dispatch (`_analyze_window`), single (`analyze_tokens`) and
  batch (`analyze_tokens_batch`) analyzers;
* `src/maxwell_demon/metrics.py` — Shannon entropy, surprisal statistics and the
  reference-model builder (`build_ref_dict`);
* `src/maxwell_demon/tournament.py` — the delta comparator (`_compute_delta_rows`).

Modelling conventions: Python floats are modelled as real numbers `ℝ` (the
reference-model builder, whose claims are exact rational arithmetic, is
modelled over `ℚ`); a Python function that can `raise` is modelled as an
`Except MDError` computation.  `ValueError` raise sites are classified by the
error taxonomy of the design document: `invalidParameter`,
`missingDependency` and `integrityError` constructors each carry the exact
message string of the corresponding `raise` statement in the source.  The
`compression_ratio` and `unique_ratio` fields of a window record are not
modelled: no claim concerns them, and the compression libraries are outside
the analysed code.  File I/O (corpus reading, CSV writing) is likewise outside
the model: `build_ref_dict` takes the token list that `preprocess_text`
produces from the corpus file, and `_compute_delta_rows` takes the two window
record lists.
-/

open Classical

/-- The error taxonomy of the design document.  Each constructor carries the
message of the Python `ValueError` raise site it classifies. -/
inductive MDError where
  | invalidParameter (msg : String)
  | missingDependency (msg : String)
  | integrityError (msg : String)
deriving DecidableEq, Repr

/-- `EPSILON = 1e-10` from `metrics.py`, the clipping floor. -/
noncomputable def EPSILON : ℝ := 1 / 10000000000

/-- Python's `range(0, stop, step)` for positive `step`: the list
`[0, step, 2*step, ...]` of all multiples of `step` below `stop`. -/
def pyRange (stop step : Nat) : List Nat :=
  List.range' 0 ((stop + step - 1) / step) step

/-- `_iter_window_tokens` from `analyzer.py`: validates `window_size` and
`step`, returns `[]` for empty input, a single window holding all tokens when
the input is shorter than `window_size`, and otherwise the slices
`tokens[start : start + window_size]` for `start` in
`range(0, len(tokens) - window_size + 1, step)`. -/
def iter_window_tokens (tokens : List String) (window_size step : Nat) :
    Except MDError (List (List String)) :=
  if window_size ≤ 0 ∨ step ≤ 0 then
    .error (.invalidParameter "window_size and step must be positive integers")
  else if tokens.isEmpty then
    .ok []
  else if tokens.length < window_size then
    .ok [tokens]
  else
    .ok ((pyRange (tokens.length - window_size + 1) step).map
      (fun start => (tokens.drop start).take window_size))

/-- `build_ref_dict` from `metrics.py`, modelled over the token list produced
by `preprocess_text` from the corpus file (file reading is outside the model)
and over exact rationals.  Counts token frequencies, rejects negative
`smoothing_k`, returns the empty table when the total count is zero, the
maximum-likelihood table when `smoothing_k = 0` and the add-k table
otherwise. -/
def build_ref_dict (tokens : List String) (smoothing_k : ℚ) :
    Except MDError (List (String × ℚ)) :=
  let counts := tokens.dedup.map (fun t => (t, tokens.count t))
  if smoothing_k < 0 then
    .error (.invalidParameter "smoothing_k must be >= 0")
  else
    let vocab_size := counts.length
    let total := (counts.map (fun p => p.2)).sum
    if total = 0 then
      .ok []
    else if smoothing_k = 0 then
      .ok (counts.map (fun p => (p.1, (p.2 : ℚ) / total)))
    else
      let denom : ℚ := total + smoothing_k * vocab_size
      .ok (counts.map (fun p => (p.1, ((p.2 : ℚ) + smoothing_k) / denom)))

/-- `np.clip(·, EPSILON, 1.0)` applied pointwise in `metrics.py`. -/
noncomputable def clip (x : ℝ) : ℝ := min (max x EPSILON) 1

/-- `np.mean` over a list of reals. -/
noncomputable def listMean (l : List ℝ) : ℝ := l.sum / l.length

/-- `np.var` (population variance) over a list of reals. -/
noncomputable def listVar (l : List ℝ) : ℝ :=
  ((l.map (fun x => (x - listMean l) ^ 2)).sum) / l.length

/-- `_validate_log_base` from `metrics.py`. -/
noncomputable def validate_log_base (log_base : ℝ) : Except MDError Unit :=
  if log_base ≤ 0 ∨ log_base = 1 then
    .error (.invalidParameter "log_base must be > 0 and != 1")
  else .ok ()

/-- `_surprisal_from_probs` from `metrics.py`: validates the base, returns the
empty list for an empty window, otherwise looks each token up in
`prob_lookup` with default `unknown_prob`, clips into `[EPSILON, 1]` and
takes `-log` (divided by `log log_base` unless the base equals `e`). -/
noncomputable def surprisal_from_probs (tokens : List String)
    (prob_lookup : List (String × ℝ)) (log_base unknown_prob : ℝ) :
    Except MDError (List ℝ) := do
  validate_log_base log_base
  if tokens.isEmpty then
    .ok []
  else
    let probs := tokens.map (fun t => clip ((prob_lookup.lookup t).getD unknown_prob))
    if log_base = Real.exp 1 then
      .ok (probs.map (fun p => -Real.log p))
    else
      .ok (probs.map (fun p => -Real.log p / Real.log log_base))

/-- `calculate_surprisal` from `metrics.py`: single-token surprisal with the
probability floored at `EPSILON` (`max(p, EPSILON)`, no upper clip). -/
noncomputable def calculate_surprisal (token : String)
    (ref_dict : List (String × ℝ)) (log_base unknown_prob : ℝ) :
    Except MDError ℝ := do
  validate_log_base log_base
  let p := max ((ref_dict.lookup token).getD unknown_prob) EPSILON
  if log_base = Real.exp 1 then .ok (-Real.log p)
  else .ok (-Real.log p / Real.log log_base)

/-- `surprisal_stats_from_ref` from `metrics.py`: mean and population variance
of the per-token surprisal list, `(0, 0)` for an empty list. -/
noncomputable def surprisal_stats_from_ref (tokens : List String)
    (ref_dict : List (String × ℝ)) (log_base unknown_prob : ℝ) :
    Except MDError (ℝ × ℝ) := do
  let surprisals ← surprisal_from_probs tokens ref_dict log_base unknown_prob
  if surprisals.length = 0 then .ok (0, 0)
  else .ok (listMean surprisals, listVar surprisals)

/-- `scipy.stats.entropy(pk, base)`: normalises `pk` to sum one, computes
`-Σ q·log q` in nats and divides by `log base`. -/
noncomputable def scipyEntropy (pk : List ℝ) (base : ℝ) : ℝ :=
  let s := pk.sum
  (-((pk.map (fun p => p / s * Real.log (p / s))).sum)) / Real.log base

/-- `calculate_shannon_entropy` from `metrics.py`: validates the base, returns
`0.0` for an empty window, otherwise builds the empirical unigram
probabilities of the window, clips them into `[EPSILON, 1]` and applies
`scipy.stats.entropy` with the given base. -/
noncomputable def calculate_shannon_entropy (tokens : List String)
    (log_base : ℝ) : Except MDError ℝ := do
  validate_log_base log_base
  if tokens.isEmpty then
    .ok 0
  else
    let probs := tokens.dedup.map (fun t => (tokens.count t : ℝ) / tokens.length)
    .ok (scipyEntropy (probs.map clip) log_base)

/-- `entropy_variance_from_tokens` from `metrics.py`: `0.0` for an empty
window (before any base validation), otherwise the population variance of
each token's self-information under the window's own empirical
distribution. -/
noncomputable def entropy_variance_from_tokens (tokens : List String)
    (log_base : ℝ) : Except MDError ℝ :=
  if tokens.isEmpty then .ok 0
  else do
    let prob_lookup := tokens.dedup.map
      (fun t => (t, (tokens.count t : ℝ) / tokens.length))
    let surprisals ← surprisal_from_probs tokens prob_lookup log_base EPSILON
    if surprisals.length = 0 then .ok 0
    else .ok (listVar surprisals)

/-- The metric fields computed by `_analyze_window` that the claims concern
(`compression_ratio` and `unique_ratio` are not modelled). -/
structure WindowMetrics where
  mean_entropy : ℝ
  entropy_variance : ℝ

/-- `_analyze_window` from `analyzer.py`: `raw` mode computes entropy and
entropy-variance from the window alone; `diff` mode requires a reference
dictionary and computes surprisal mean/variance against it; any other mode
is rejected. -/
noncomputable def analyze_window (window_tokens : List String) (mode : String)
    (ref_dict : Option (List (String × ℝ))) (log_base unknown_prob : ℝ) :
    Except MDError WindowMetrics :=
  if mode = "raw" then do
    let mean_entropy ← calculate_shannon_entropy window_tokens log_base
    let entropy_variance ← entropy_variance_from_tokens window_tokens log_base
    .ok ⟨mean_entropy, entropy_variance⟩
  else if mode = "diff" then
    match ref_dict with
    | none => .error (.missingDependency "ref_dict is required for diff mode")
    | some rd => do
        let stats ← surprisal_stats_from_ref window_tokens rd log_base unknown_prob
        .ok ⟨stats.1, stats.2⟩
  else
    .error (.invalidParameter "mode must be raw or diff")

/-- One record of `analyze_tokens` output: the positional `window_id` plus the
modelled metric fields. -/
structure WindowRow where
  window_id : ℕ
  mean_entropy : ℝ
  entropy_variance : ℝ

/-- The `for window_id, window_tokens in enumerate(windows)` loop of
`analyze_tokens`, with `i` the next index to assign. -/
noncomputable def analyzeRowsFrom (mode : String)
    (ref_dict : Option (List (String × ℝ))) (log_base unknown_prob : ℝ) :
    List (List String) → ℕ → Except MDError (List WindowRow)
  | [], _ => .ok []
  | w :: ws, i => do
      let m ← analyze_window w mode ref_dict log_base unknown_prob
      let rest ← analyzeRowsFrom mode ref_dict log_base unknown_prob ws (i + 1)
      .ok (⟨i, m.mean_entropy, m.entropy_variance⟩ :: rest)

/-- `analyze_tokens` from `analyzer.py`: uses `precomputed_windows` if given,
otherwise segments `tokens`, then analyzes each window in order, tagging
records with sequential `window_id`s starting at `0`. -/
noncomputable def analyze_tokens (tokens : List String) (mode : String)
    (window_size step : ℕ) (ref_dict : Option (List (String × ℝ)))
    (log_base unknown_prob : ℝ)
    (precomputed_windows : Option (List (List String))) :
    Except MDError (List WindowRow) := do
  let windows ← match precomputed_windows with
    | some ws => .ok ws
    | none => iter_window_tokens tokens window_size step
  analyzeRowsFrom mode ref_dict log_base unknown_prob windows 0

/-- The `for name, ref_dict in ref_dicts.items()` loop of
`analyze_tokens_batch`, evaluating each named reference over the shared
`windows`. -/
noncomputable def batchDiffLoop (tokens : List String) (window_size step : ℕ)
    (log_base unknown_prob : ℝ) (windows : List (List String)) :
    List (String × List (String × ℝ)) →
    Except MDError (List (String × List WindowRow))
  | [] => .ok []
  | (name, rd) :: rest => do
      let rows ← analyze_tokens tokens "diff" window_size step (some rd)
        log_base unknown_prob (some windows)
      let others ← batchDiffLoop tokens window_size step log_base unknown_prob
        windows rest
      .ok ((name, rows) :: others)

/-- `analyze_tokens_batch` from `analyzer.py`: segments once, then (in `diff`
mode) evaluates every named reference table over the shared windows; rejects
unknown modes and an empty reference family. -/
noncomputable def analyze_tokens_batch (tokens : List String) (mode : String)
    (window_size step : ℕ)
    (ref_dicts : List (String × List (String × ℝ)))
    (log_base unknown_prob : ℝ) :
    Except MDError (List (String × List WindowRow)) := do
  let windows ← iter_window_tokens tokens window_size step
  if mode = "raw" then
    let rows ← analyze_tokens tokens "raw" window_size step none log_base
      unknown_prob (some windows)
    .ok [("raw", rows)]
  else if mode ≠ "diff" then
    .error (.invalidParameter "mode must be raw or diff")
  else if ref_dicts.isEmpty then
    .error (.invalidParameter "ref_dicts is required for diff batch mode")
  else
    batchDiffLoop tokens window_size step log_base unknown_prob windows ref_dicts

/-- One Tournament Record as built by `_compute_delta_rows`. -/
structure TournamentRecord where
  filename : String
  window_id : ℕ
  label : String
  delta_h : ℝ
  burstiness_paisa : ℝ

/-- `_compute_delta_rows` from `tournament.py`: rejects unequal window counts,
otherwise pairs the two row lists positionally and emits one record per
pair with `delta_h` the difference of mean entropies and
`burstiness_paisa` the paisa-side entropy variance. -/
noncomputable def compute_delta_rows (filename label : String)
    (paisa_rows synthetic_rows : List WindowRow) :
    Except MDError (List TournamentRecord) :=
  if paisa_rows.length ≠ synthetic_rows.length then
    .error (.integrityError "Mismatched window counts between reference analyses")
  else
    .ok (List.zipWith
      (fun p s : WindowRow =>
        { filename := filename
          window_id := p.window_id
          label := label
          delta_h := p.mean_entropy - s.mean_entropy
          burstiness_paisa := p.entropy_variance })
      paisa_rows synthetic_rows)

/-- C1: Segmentation boundary law: for every token list of length `L` and
positive `window_size = w`, `step = s`, the segmenter produces zero windows
when `L = 0`; exactly one window holding all tokens when `0 < L < w`; and
exactly `(L - w) / s + 1` windows, the `i`-th being the `w` tokens starting
at offset `i * s`, when `L ≥ w`; in particular
`["uno","due","uno","tre"]` with `w = 2`, `s = 1` yields exactly the windows
`["uno","due"]`, `["due","uno"]`, `["uno","tre"]`. -/
theorem C1_segmentation_boundary_law (tokens : List String) (w s : ℕ)
    (hw : 0 < w) (hs : 0 < s) :
    (tokens.length = 0 → iter_window_tokens tokens w s = .ok []) ∧
    (0 < tokens.length → tokens.length < w →
      iter_window_tokens tokens w s = .ok [tokens]) ∧
    (w ≤ tokens.length → ∃ out,
      iter_window_tokens tokens w s = .ok out ∧
      out.length = (tokens.length - w) / s + 1 ∧
      ∀ i, ∀ hi : i < out.length,
        out.get ⟨i, hi⟩ = (tokens.drop (i * s)).take w ∧
        (out.get ⟨i, hi⟩).length = w) ∧
    iter_window_tokens ["uno", "due", "uno", "tre"] 2 1 =
      .ok [["uno", "due"], ["due", "uno"], ["uno", "tre"]] := by
  have hvalid : ¬ (w ≤ 0 ∨ s ≤ 0) := by omega
  refine ⟨?_, ?_, ?_, ?_⟩
  · intro h0
    have he : tokens = [] := List.length_eq_zero.mp h0
    subst he
    simp only [iter_window_tokens]
    rw [if_neg hvalid]
    simp
  · intro hpos hlt
    have hne : tokens.isEmpty = false := by
      cases tokens with
      | nil => simp at hpos
      | cons a l => simp
    simp only [iter_window_tokens]
    rw [if_neg hvalid]
    simp [hne, hlt]
  · intro hge
    have hpos : 0 < tokens.length := lt_of_lt_of_le hw hge
    have hne : tokens.isEmpty = false := by
      cases tokens with
      | nil => simp at hpos
      | cons a l => simp
    have hnlt : ¬ tokens.length < w := not_lt.mpr hge
    refine ⟨(pyRange (tokens.length - w + 1) s).map
      (fun start => (tokens.drop start).take w), ?_, ?_, ?_⟩
    · simp only [iter_window_tokens]
      rw [if_neg hvalid]
      simp [hne, hnlt]
    · have harg : tokens.length - w + 1 + s - 1 = tokens.length - w + s := by omega
      simp [pyRange, List.length_range', harg, Nat.add_div_right _ hs]
    · intro i hi
      have hlen : ((pyRange (tokens.length - w + 1) s).map
          (fun start => (tokens.drop start).take w)).length =
          (tokens.length - w) / s + 1 := by
        have harg : tokens.length - w + 1 + s - 1 = tokens.length - w + s := by omega
        simp [pyRange, List.length_range', harg, Nat.add_div_right _ hs]
      have hi' : i < (tokens.length - w) / s + 1 := by rw [hlen] at hi; exact hi
      have hile : i ≤ (tokens.length - w) / s := by omega
      have hoff : i * s ≤ tokens.length - w :=
        le_trans (Nat.mul_le_mul_right s hile) (Nat.div_mul_le_self _ _)
      have harg : tokens.length - w + 1 + s - 1 = tokens.length - w + s := by omega
      have hri : i < (pyRange (tokens.length - w + 1) s).length := by
        simp only [pyRange, List.length_range']
        rw [harg, Nat.add_div_right _ hs]
        exact hi'
      have hgete : ((pyRange (tokens.length - w + 1) s).map
          (fun start => (tokens.drop start).take w)).get ⟨i, hi⟩ =
          (tokens.drop ((pyRange (tokens.length - w + 1) s).get ⟨i, hri⟩)).take w := by
        simp [List.get_eq_getElem]
      have hrange : (pyRange (tokens.length - w + 1) s).get ⟨i, hri⟩ = i * s := by
        simp [pyRange, List.get_eq_getElem, List.getElem_range', Nat.mul_comm]
      constructor
      · rw [hgete, hrange]
      · rw [hgete, hrange]
        simp only [List.length_take, List.length_drop]
        omega
  · rfl

/-- Witness for C1 at the concrete scenario of the specification. -/
theorem C1_segmentation_boundary_law_witness :
    iter_window_tokens ["uno", "due", "uno", "tre"] 2 1 =
      .ok [["uno", "due"], ["due", "uno"], ["uno", "tre"]] :=
  (C1_segmentation_boundary_law ["uno", "due", "uno", "tre"] 2 1
    (by decide) (by decide)).2.2.2

/-- C2: Tournament delta rule: for equal-length paisa/synthetic window-record
lists the comparator emits exactly one Tournament Record per paired window
`i`, with `delta_h` the paisa mean entropy minus the synthetic mean entropy,
`burstiness_paisa` the paisa entropy variance, `window_id` taken from the
paisa record, and the filename and label carried on every record. -/
theorem C2_tournament_delta_rule (filename label : String)
    (paisa_rows synthetic_rows : List WindowRow)
    (h : paisa_rows.length = synthetic_rows.length) :
    ∃ out, compute_delta_rows filename label paisa_rows synthetic_rows = .ok out ∧
      out.length = paisa_rows.length ∧
      ∀ i, ∀ hi : i < out.length, ∀ hp : i < paisa_rows.length,
        ∀ hsy : i < synthetic_rows.length,
        (out.get ⟨i, hi⟩).delta_h =
          (paisa_rows.get ⟨i, hp⟩).mean_entropy -
            (synthetic_rows.get ⟨i, hsy⟩).mean_entropy ∧
        (out.get ⟨i, hi⟩).burstiness_paisa =
          (paisa_rows.get ⟨i, hp⟩).entropy_variance ∧
        (out.get ⟨i, hi⟩).window_id = (paisa_rows.get ⟨i, hp⟩).window_id ∧
        (out.get ⟨i, hi⟩).filename = filename ∧
        (out.get ⟨i, hi⟩).label = label := by
  refine ⟨List.zipWith
    (fun p s : WindowRow =>
      { filename := filename
        window_id := p.window_id
        label := label
        delta_h := p.mean_entropy - s.mean_entropy
        burstiness_paisa := p.entropy_variance })
    paisa_rows synthetic_rows, ?_, ?_, ?_⟩
  · simp [compute_delta_rows, h]
  · simp [List.length_zipWith, h]
  · intro i hi hp hsy
    simp [List.get_eq_getElem, List.getElem_zipWith]

/-- Witness for C2 at a concrete pair of one-record lists. -/
theorem C2_tournament_delta_rule_witness :
    ∃ out, compute_delta_rows "doc.txt" "human"
        [⟨7, 5, 3⟩] [⟨0, 2, 9⟩] = .ok out ∧
      out.length = ([⟨7, 5, 3⟩] : List WindowRow).length ∧
      ∀ i, ∀ hi : i < out.length,
        ∀ hp : i < ([⟨7, 5, 3⟩] : List WindowRow).length,
        ∀ hsy : i < ([⟨0, 2, 9⟩] : List WindowRow).length,
        (out.get ⟨i, hi⟩).delta_h =
          (([⟨7, 5, 3⟩] : List WindowRow).get ⟨i, hp⟩).mean_entropy -
            (([⟨0, 2, 9⟩] : List WindowRow).get ⟨i, hsy⟩).mean_entropy ∧
        (out.get ⟨i, hi⟩).burstiness_paisa =
          (([⟨7, 5, 3⟩] : List WindowRow).get ⟨i, hp⟩).entropy_variance ∧
        (out.get ⟨i, hi⟩).window_id =
          (([⟨7, 5, 3⟩] : List WindowRow).get ⟨i, hp⟩).window_id ∧
        (out.get ⟨i, hi⟩).filename = "doc.txt" ∧
        (out.get ⟨i, hi⟩).label = "human" :=
  C2_tournament_delta_rule "doc.txt" "human" [⟨7, 5, 3⟩] [⟨0, 2, 9⟩] rfl

/-- C4: Integrity failure on mismatched pairing: on two window-record lists of
unequal length the comparator fails with the integrity error and emits no
Tournament Records. -/
theorem C4_integrity_failure (filename label : String)
    (paisa_rows synthetic_rows : List WindowRow)
    (h : paisa_rows.length ≠ synthetic_rows.length) :
    compute_delta_rows filename label paisa_rows synthetic_rows =
      .error (.integrityError
        "Mismatched window counts between reference analyses") := by
  simp [compute_delta_rows, h]

/-- Witness for C4 at a concrete mismatched pair (one record vs none). -/
theorem C4_integrity_failure_witness :
    compute_delta_rows "doc.txt" "ai" [⟨0, 0, 0⟩] [] =
      .error (.integrityError
        "Mismatched window counts between reference analyses") :=
  C4_integrity_failure "doc.txt" "ai" [⟨0, 0, 0⟩] [] (by simp)

universe u v

theorem except_ok_bind {ε : Type u} {α β : Type v} (a : α) (f : α → Except ε β) :
    (Except.ok a >>= f : Except ε β) = f a := rfl

theorem except_error_bind {ε : Type u} {α β : Type v} (e : ε) (f : α → Except ε β) :
    (Except.error e >>= f : Except ε β) = Except.error e := rfl

theorem validate_log_base_ok {b : ℝ} (hb : 0 < b) (hb1 : b ≠ 1) :
    validate_log_base b = .ok () := by
  have h : ¬ (b ≤ 0 ∨ b = 1) := by push_neg; exact ⟨hb, hb1⟩
  unfold validate_log_base
  rw [if_neg h]

/-- For a valid base the two logarithm branches of `_surprisal_from_probs`
agree, and the result is the pointwise clipped surprisal list. -/
theorem surprisal_from_probs_eq (tokens : List String)
    (prob_lookup : List (String × ℝ)) {b : ℝ} (u : ℝ)
    (hb : 0 < b) (hb1 : b ≠ 1) :
    surprisal_from_probs tokens prob_lookup b u =
      .ok (tokens.map (fun t =>
        -Real.log (clip ((prob_lookup.lookup t).getD u)) / Real.log b)) := by
  unfold surprisal_from_probs
  rw [validate_log_base_ok hb hb1, except_ok_bind]
  by_cases he : tokens.isEmpty
  · have h0 : tokens = [] := by cases tokens <;> simp_all
    subst h0
    simp
  · rw [if_neg he]
    by_cases hexp : b = Real.exp 1
    · subst hexp
      rw [if_pos rfl]
      simp [Real.log_exp, List.map_map, Function.comp]
    · rw [if_neg hexp]
      simp [List.map_map, Function.comp]

/-- On a non-empty window `surprisal_stats_from_ref` returns the mean and
population variance of the clipped surprisal list. -/
theorem surprisal_stats_from_ref_eq (tokens : List String)
    (rd : List (String × ℝ)) {b : ℝ} (u : ℝ)
    (hb : 0 < b) (hb1 : b ≠ 1) (hne : tokens ≠ []) :
    surprisal_stats_from_ref tokens rd b u =
      .ok (listMean (tokens.map (fun t =>
             -Real.log (clip ((rd.lookup t).getD u)) / Real.log b)),
           listVar (tokens.map (fun t =>
             -Real.log (clip ((rd.lookup t).getD u)) / Real.log b))) := by
  unfold surprisal_stats_from_ref
  rw [surprisal_from_probs_eq tokens rd u hb hb1, except_ok_bind]
  rw [if_neg (by simp [hne])]

theorem surprisal_stats_from_ref_isOk (tokens : List String)
    (rd : List (String × ℝ)) {b : ℝ} (u : ℝ)
    (hb : 0 < b) (hb1 : b ≠ 1) :
    ∃ p, surprisal_stats_from_ref tokens rd b u = .ok p := by
  by_cases hne : tokens = []
  · subst hne
    refine ⟨(0, 0), ?_⟩
    unfold surprisal_stats_from_ref
    rw [surprisal_from_probs_eq [] rd u hb hb1, except_ok_bind]
    simp
  · exact ⟨_, surprisal_stats_from_ref_eq tokens rd u hb hb1 hne⟩

theorem calculate_shannon_entropy_isOk (tokens : List String) {b : ℝ}
    (hb : 0 < b) (hb1 : b ≠ 1) :
    ∃ me, calculate_shannon_entropy tokens b = .ok me := by
  unfold calculate_shannon_entropy
  rw [validate_log_base_ok hb hb1, except_ok_bind]
  by_cases he : tokens.isEmpty
  · rw [if_pos he]; exact ⟨0, rfl⟩
  · rw [if_neg he]; exact ⟨_, rfl⟩

theorem entropy_variance_from_tokens_isOk (tokens : List String) {b : ℝ}
    (hb : 0 < b) (hb1 : b ≠ 1) :
    ∃ ev, entropy_variance_from_tokens tokens b = .ok ev := by
  unfold entropy_variance_from_tokens
  by_cases he : tokens.isEmpty
  · rw [if_pos he]; exact ⟨0, rfl⟩
  · rw [if_neg he]
    dsimp only
    rw [surprisal_from_probs_eq tokens _ _ hb hb1, except_ok_bind]
    by_cases hz : (tokens.map (fun t =>
        -Real.log (clip (((tokens.dedup.map (fun t => (t, (tokens.count t : ℝ) / tokens.length))).lookup t).getD EPSILON)) / Real.log b)).length = 0
    · rw [if_pos hz]; exact ⟨0, rfl⟩
    · rw [if_neg hz]; exact ⟨_, rfl⟩

/-- In `raw` mode `_analyze_window` succeeds for any valid base, and its
result does not depend on the reference dictionary. -/
theorem analyze_window_raw_isOk (toks : List String) {b : ℝ} (u : ℝ)
    (hb : 0 < b) (hb1 : b ≠ 1) :
    ∃ me ev, calculate_shannon_entropy toks b = .ok me ∧
      entropy_variance_from_tokens toks b = .ok ev ∧
      ∀ r : Option (List (String × ℝ)),
        analyze_window toks "raw" r b u = .ok ⟨me, ev⟩ := by
  obtain ⟨me, hme⟩ := calculate_shannon_entropy_isOk toks hb hb1
  obtain ⟨ev, hev⟩ := entropy_variance_from_tokens_isOk toks hb hb1
  refine ⟨me, ev, hme, hev, fun r => ?_⟩
  unfold analyze_window
  rw [if_pos rfl, hme, except_ok_bind, hev, except_ok_bind]

/-- In `diff` mode with a reference `_analyze_window` returns the surprisal
statistics. -/
theorem analyze_window_diff_isOk (toks : List String)
    (rd : List (String × ℝ)) {b : ℝ} (u : ℝ) (hb : 0 < b) (hb1 : b ≠ 1) :
    ∃ stats, surprisal_stats_from_ref toks rd b u = .ok stats ∧
      analyze_window toks "diff" (some rd) b u = .ok ⟨stats.1, stats.2⟩ := by
  obtain ⟨stats, hstats⟩ := surprisal_stats_from_ref_isOk toks rd u hb hb1
  refine ⟨stats, hstats, ?_⟩
  unfold analyze_window
  rw [if_neg (by decide), if_pos rfl]
  dsimp only
  rw [hstats, except_ok_bind]

/-- The enumerate loop of `analyze_tokens` over windows whose analysis always
succeeds: one record per window, consecutive `window_id`s from `i`. -/
theorem analyzeRowsFrom_ok (mode : String)
    (rd : Option (List (String × ℝ))) (b u : ℝ)
    (h : ∀ w, ∃ m, analyze_window w mode rd b u = .ok m) :
    ∀ (ws : List (List String)) (i : ℕ),
      ∃ rows, analyzeRowsFrom mode rd b u ws i = .ok rows ∧
        rows.length = ws.length ∧
        rows.map (fun r => r.window_id) = List.range' i ws.length := by
  intro ws
  induction ws with
  | nil => intro i; exact ⟨[], rfl, rfl, rfl⟩
  | cons w ws ih =>
    intro i
    obtain ⟨m, hm⟩ := h w
    obtain ⟨rows, hrows, hlen, hids⟩ := ih (i + 1)
    refine ⟨⟨i, m.mean_entropy, m.entropy_variance⟩ :: rows, ?_, by simp [hlen], ?_⟩
    · unfold analyzeRowsFrom
      rw [hm, except_ok_bind, hrows, except_ok_bind]
    · simp only [List.map_cons, hids, List.length_cons, List.range'_succ]

/-- Segmentation never fails for positive `window_size` and `step`. -/
theorem iter_window_tokens_isOk (tokens : List String) {w s : ℕ}
    (hw : 0 < w) (hs : 0 < s) :
    ∃ ws, iter_window_tokens tokens w s = .ok ws := by
  unfold iter_window_tokens
  rw [if_neg (by omega)]
  by_cases he : tokens.isEmpty
  · rw [if_pos he]; exact ⟨[], rfl⟩
  · rw [if_neg he]
    by_cases hlt : tokens.length < w
    · rw [if_pos hlt]; exact ⟨[tokens], rfl⟩
    · rw [if_neg hlt]; exact ⟨_, rfl⟩

theorem analyze_tokens_precomputed (tokens : List String) (mode : String)
    (wsz st : ℕ) (rd : Option (List (String × ℝ))) (b u : ℝ)
    (windows : List (List String)) :
    analyze_tokens tokens mode wsz st rd b u (some windows) =
      analyzeRowsFrom mode rd b u windows 0 := rfl

/-- The reference loop of the batch analyzer: over shared `windows` and a
valid base, every named reference yields one row list of length
`windows.length` with `window_id`s `0, 1, 2, ...`. -/
theorem batchDiffLoop_ok (tokens : List String) (wsz st : ℕ) {b : ℝ} (u : ℝ)
    (hb : 0 < b) (hb1 : b ≠ 1) (windows : List (List String)) :
    ∀ refs : List (String × List (String × ℝ)),
      ∃ out, batchDiffLoop tokens wsz st b u windows refs = .ok out ∧
        out.length = refs.length ∧
        (∀ e ∈ out, (e.2).length = windows.length ∧
          (e.2).map (fun r => r.window_id) = List.range windows.length) ∧
        out.map (fun e => e.1) = refs.map (fun e => e.1) := by
  intro refs
  induction refs with
  | nil => exact ⟨[], rfl, rfl, by simp, rfl⟩
  | cons nr rest ih =>
    obtain ⟨name, rdict⟩ := nr
    obtain ⟨out, hout, hlen, hprops, hnames⟩ := ih
    obtain ⟨rows, hrows, hrlen, hrids⟩ :=
      analyzeRowsFrom_ok "diff" (some rdict) b u
        (fun w => by
          obtain ⟨stats, _, hw⟩ := analyze_window_diff_isOk w rdict u hb hb1
          exact ⟨_, hw⟩)
        windows 0
    refine ⟨(name, rows) :: out, ?_, by simp [hlen], ?_, by simp [hnames]⟩
    · unfold batchDiffLoop
      rw [analyze_tokens_precomputed, hrows, except_ok_bind, hout,
        except_ok_bind]
    · intro e he
      rcases List.mem_cons.mp he with he | he
      · subst he
        exact ⟨hrlen, by rw [hrids, List.range_eq_range']⟩
      · exact hprops e he

/-- C3: Pairing invariant of the batch analyzer: for every token list,
positive `window_size` and `step`, valid log base, and non-empty family of
named reference tables, the diff-mode batch analyzer succeeds and returns,
for each reference name, a record list whose length is the shared window
count and whose `window_id` sequence is `0, 1, 2, ...` over those shared
window boundaries, regardless of which reference tables are supplied. -/
theorem C3_pairing_invariant (tokens : List String) (w s : ℕ)
    (hw : 0 < w) (hs : 0 < s)
    (refs : List (String × List (String × ℝ))) (hne : refs ≠ [])
    {b : ℝ} (u : ℝ) (hb : 0 < b) (hb1 : b ≠ 1) :
    ∃ windows out,
      iter_window_tokens tokens w s = .ok windows ∧
      analyze_tokens_batch tokens "diff" w s refs b u = .ok out ∧
      out.length = refs.length ∧
      out.map (fun e => e.1) = refs.map (fun e => e.1) ∧
      ∀ e ∈ out, (e.2).length = windows.length ∧
        (e.2).map (fun r => r.window_id) = List.range windows.length := by
  obtain ⟨windows, hwin⟩ := iter_window_tokens_isOk tokens hw hs
  obtain ⟨out, hout, hlen, hprops, hnames⟩ :=
    batchDiffLoop_ok tokens w s u hb hb1 windows refs
  refine ⟨windows, out, hwin, ?_, hlen, hnames, hprops⟩
  have hempty : refs.isEmpty = false := by
    cases refs with
    | nil => exact absurd rfl hne
    | cons a l => rfl
  unfold analyze_tokens_batch
  rw [hwin, except_ok_bind]
  rw [if_neg (by decide)]
  rw [if_neg (by simp)]
  simp only [hempty, Bool.false_eq_true, if_false]
  exact hout

/-- Witness for C3 on a concrete document and two concrete reference
tables. -/
theorem C3_pairing_invariant_witness :
    ∃ windows out,
      iter_window_tokens ["a", "b", "c"] 2 1 = .ok windows ∧
      analyze_tokens_batch ["a", "b", "c"] "diff" 2 1
        [("A", []), ("B", [("a", 1)])] 2 0 = .ok out ∧
      out.length = ([("A", []), ("B", [("a", 1)])] :
        List (String × List (String × ℝ))).length ∧
      out.map (fun e => e.1) = ([("A", []), ("B", [("a", 1)])] :
        List (String × List (String × ℝ))).map (fun e => e.1) ∧
      ∀ e ∈ out, (e.2).length = windows.length ∧
        (e.2).map (fun r => r.window_id) = List.range windows.length :=
  C3_pairing_invariant ["a", "b", "c"] 2 1 (by decide) (by decide)
    [("A", []), ("B", [("a", 1)])] (by simp) 0 (by norm_num) (by norm_num)

/-- C9: Mode dispatch is a closed two-way choice: for a valid log base,
`raw` mode computes entropy and entropy-variance with no reference needed
(the result is the same for every supplied reference option), `diff` mode
computes surprisal mean/variance against exactly the one supplied reference,
any other mode value fails with an `invalidParameter` condition, and `diff`
mode without a reference fails with a `missingDependency` condition — a
condition distinct from `invalidParameter` — producing no metric output in
either failure case. -/
theorem C9_mode_dispatch (toks : List String) (rd : List (String × ℝ))
    (b u : ℝ) (hb : 0 < b) (hb1 : b ≠ 1) :
    (∃ me ev, calculate_shannon_entropy toks b = .ok me ∧
      entropy_variance_from_tokens toks b = .ok ev ∧
      ∀ r : Option (List (String × ℝ)),
        analyze_window toks "raw" r b u = .ok ⟨me, ev⟩) ∧
    (∃ stats, surprisal_stats_from_ref toks rd b u = .ok stats ∧
      analyze_window toks "diff" (some rd) b u = .ok ⟨stats.1, stats.2⟩) ∧
    (∃ msg, analyze_window toks "diff" none b u =
      .error (.missingDependency msg)) ∧
    (∀ mode, mode ≠ "raw" → mode ≠ "diff" →
      ∀ r : Option (List (String × ℝ)), ∃ msg,
        analyze_window toks mode r b u = .error (.invalidParameter msg)) ∧
    (∀ m1 m2, MDError.missingDependency m1 ≠ MDError.invalidParameter m2) := by
  refine ⟨analyze_window_raw_isOk toks u hb hb1,
    analyze_window_diff_isOk toks rd u hb hb1,
    ⟨"ref_dict is required for diff mode", ?_⟩, ?_, ?_⟩
  · unfold analyze_window
    rw [if_neg (by decide), if_pos rfl]
  · intro mode hraw hdiff r
    refine ⟨"mode must be raw or diff", ?_⟩
    unfold analyze_window
    rw [if_neg hraw, if_neg hdiff]
  · intro m1 m2 h
    exact MDError.noConfusion h

/-- Witness for C9 at a concrete window, reference and base. -/
theorem C9_mode_dispatch_witness :
    (∃ me ev, calculate_shannon_entropy ["x"] 2 = .ok me ∧
      entropy_variance_from_tokens ["x"] 2 = .ok ev ∧
      ∀ r : Option (List (String × ℝ)),
        analyze_window ["x"] "raw" r 2 0 = .ok ⟨me, ev⟩) ∧
    (∃ stats, surprisal_stats_from_ref ["x"] [("x", 1 / 2)] 2 0 = .ok stats ∧
      analyze_window ["x"] "diff" (some [("x", 1 / 2)]) 2 0 =
        .ok ⟨stats.1, stats.2⟩) ∧
    (∃ msg, analyze_window ["x"] "diff" none 2 0 =
      .error (.missingDependency msg)) ∧
    (∀ mode, mode ≠ "raw" → mode ≠ "diff" →
      ∀ r : Option (List (String × ℝ)), ∃ msg,
        analyze_window ["x"] mode r 2 0 = .error (.invalidParameter msg)) ∧
    (∀ m1 m2, MDError.missingDependency m1 ≠ MDError.invalidParameter m2) :=
  C9_mode_dispatch ["x"] [("x", 1 / 2)] 2 0 (by norm_num) (by norm_num)

theorem lookup_map_pair {α : Type} (f : String → α) :
    ∀ (l : List String) (t : String), t ∈ l →
      (l.map (fun x => (x, f x))).lookup t = some (f t) := by
  intro l
  induction l with
  | nil => intro t ht; cases ht
  | cons a l ih =>
    intro t ht
    by_cases hat : t = a
    · subst hat
      simp [List.lookup]
    · have htl : t ∈ l := by
        rcases List.mem_cons.mp ht with h | h
        · exact absurd h hat
        · exact h
      rw [List.map_cons, List.lookup_cons, beq_false_of_ne hat]
      exact ih t htl

/-- `total = sum(counts.values())` in `build_ref_dict` equals the corpus
length. -/
theorem total_counts_eq_length (tokens : List String) :
    ((tokens.dedup.map (fun t => (t, tokens.count t))).map
      (fun p => p.2)).sum = tokens.length := by
  rw [List.map_map]
  exact List.sum_map_count_dedup_eq_length tokens

/-- Closed form of `build_ref_dict` at `smoothing_k = 0` on a non-empty
corpus. -/
theorem build_ref_dict_zero_eq (tokens : List String) (hne : tokens ≠ []) :
    build_ref_dict tokens 0 =
      .ok (tokens.dedup.map (fun t =>
        (t, (tokens.count t : ℚ) / (tokens.length : ℚ)))) := by
  have hlen : ¬ (tokens.length = 0) := fun h => hne (List.length_eq_zero.mp h)
  simp only [build_ref_dict]
  rw [if_neg (by norm_num), total_counts_eq_length, if_neg hlen, if_pos trivial,
    List.map_map]
  rfl

/-- Closed form of `build_ref_dict` at `smoothing_k > 0` on a non-empty
corpus. -/
theorem build_ref_dict_pos_eq (tokens : List String) {k : ℚ} (hk : 0 < k)
    (hne : tokens ≠ []) :
    build_ref_dict tokens k =
      .ok (tokens.dedup.map (fun t =>
        (t, ((tokens.count t : ℚ) + k) /
          ((tokens.length : ℚ) + k * (tokens.dedup.length : ℚ))))) := by
  have hlen : ¬ (tokens.length = 0) := fun h => hne (List.length_eq_zero.mp h)
  simp only [build_ref_dict]
  rw [if_neg (not_lt.mpr hk.le), total_counts_eq_length, if_neg hlen,
    if_neg hk.ne', List.length_map, List.map_map]
  rfl

/-- C5: Reference model builder contract: negative `smoothing_k` fails with
the `invalidParameter` condition and no table is produced; an empty corpus
(with `smoothing_k ≥ 0`) yields the empty table; `smoothing_k = 0` assigns
every observed token `count(t) / total_count`; `smoothing_k > 0` assigns
every observed token `(count(t) + k) / (total_count + k · vocabulary_size)`
with `vocabulary_size` the number of distinct observed tokens. -/
theorem C5_ref_model_builder (tokens : List String) (k : ℚ) :
    (k < 0 → build_ref_dict tokens k =
      .error (.invalidParameter "smoothing_k must be >= 0")) ∧
    (0 ≤ k → tokens = [] → build_ref_dict tokens k = .ok []) ∧
    (tokens ≠ [] → ∃ m, build_ref_dict tokens 0 = .ok m ∧
      ∀ t ∈ tokens, m.lookup t =
        some ((tokens.count t : ℚ) / (tokens.length : ℚ))) ∧
    (0 < k → tokens ≠ [] → ∃ m, build_ref_dict tokens k = .ok m ∧
      ∀ t ∈ tokens, m.lookup t =
        some (((tokens.count t : ℚ) + k) /
          ((tokens.length : ℚ) + k * (tokens.dedup.length : ℚ)))) := by
  refine ⟨?_, ?_, ?_, ?_⟩
  · intro hk
    simp only [build_ref_dict]
    rw [if_pos hk]
  · intro hk0 he
    subst he
    simp [build_ref_dict, not_lt.mpr hk0]
  · intro hne
    refine ⟨_, build_ref_dict_zero_eq tokens hne, ?_⟩
    intro t ht
    exact lookup_map_pair
      (fun t => (tokens.count t : ℚ) / (tokens.length : ℚ))
      tokens.dedup t (List.mem_dedup.mpr ht)
  · intro hk hne
    refine ⟨_, build_ref_dict_pos_eq tokens hk hne, ?_⟩
    intro t ht
    exact lookup_map_pair
      (fun t => ((tokens.count t : ℚ) + k) /
        ((tokens.length : ℚ) + k * (tokens.dedup.length : ℚ)))
      tokens.dedup t (List.mem_dedup.mpr ht)

/-- Witness for C5: the four branches at concrete corpora and smoothing
values. -/
theorem C5_ref_model_builder_witness :
    (build_ref_dict ["a"] (-1) =
      .error (.invalidParameter "smoothing_k must be >= 0")) ∧
    (build_ref_dict ([] : List String) 2 = .ok []) ∧
    (∃ m, build_ref_dict ["a", "a", "b"] 0 = .ok m ∧
      ∀ t ∈ ["a", "a", "b"], m.lookup t =
        some ((List.count t ["a", "a", "b"] : ℚ) /
          ((["a", "a", "b"] : List String).length : ℚ))) ∧
    (∃ m, build_ref_dict ["a", "a", "b"] 1 = .ok m ∧
      ∀ t ∈ ["a", "a", "b"], m.lookup t =
        some (((List.count t ["a", "a", "b"] : ℚ) + 1) /
          (((["a", "a", "b"] : List String).length : ℚ) +
            1 * ((["a", "a", "b"] : List String).dedup.length : ℚ)))) :=
  ⟨(C5_ref_model_builder ["a"] (-1)).1 (by norm_num),
   (C5_ref_model_builder ([] : List String) 2).2.1 (by norm_num) rfl,
   (C5_ref_model_builder ["a", "a", "b"] 0).2.2.1 (by simp),
   (C5_ref_model_builder ["a", "a", "b"] 1).2.2.2 (by norm_num) (by simp)⟩

/-- C8 counterexample: on the single-token corpus `["a"]` the most frequent
token keeps probability `1` at `smoothing_k = 0` and at `smoothing_k = 1`,
so its probability is not strictly decreasing in `smoothing_k`. -/
theorem C8_counterexample :
    build_ref_dict ["a"] 0 = .ok [("a", 1)] ∧
    build_ref_dict ["a"] 1 = .ok [("a", 1)] ∧
    ¬ ((1 : ℚ) < 1) := by
  refine ⟨?_, ?_, lt_irrefl 1⟩
  · rw [build_ref_dict_zero_eq ["a"] (by simp)]
    norm_num
  · rw [build_ref_dict_pos_eq ["a"] one_pos (by simp)]
    norm_num

theorem sum_lt_length_mul {l : List ℕ} {c : ℕ} (hle : ∀ x ∈ l, x ≤ c)
    (hex : ∃ x ∈ l, x < c) : l.sum < l.length * c := by
  induction l with
  | nil => rcases hex with ⟨x, hx, _⟩; cases hx
  | cons a l ih =>
    rcases hex with ⟨x, hx, hxc⟩
    have ha : a ≤ c := hle a (List.mem_cons_self a l)
    have hmul : (l.length + 1) * c = l.length * c + c := by ring
    rcases List.mem_cons.mp hx with rfl | hxl
    · have hsum : l.sum ≤ l.length * c := by
        have := List.sum_le_card_nsmul l c
          (fun y hy => hle y (List.mem_cons_of_mem _ hy))
        simpa [smul_eq_mul] using this
      simp only [List.sum_cons, List.length_cons]
      rw [hmul]
      linarith
    · have ih' := ih (fun y hy => hle y (List.mem_cons_of_mem _ hy)) ⟨x, hxl, hxc⟩
      simp only [List.sum_cons, List.length_cons]
      rw [hmul]
      linarith

theorem exists_mem_ne_of_two_le_length {l : List String} (hn : l.Nodup)
    (h2 : 2 ≤ l.length) (t : String) : ∃ x ∈ l, x ≠ t := by
  cases l with
  | nil => simp at h2
  | cons a l' =>
    cases l' with
    | nil => simp at h2
    | cons b rest =>
      by_cases hat : a = t
      · refine ⟨b, List.mem_cons_of_mem _ (List.mem_cons_self _ _), fun hbt => ?_⟩
        have hanb : a ∉ b :: rest := (List.nodup_cons.mp hn).1
        exact hanb (by rw [hat, ← hbt]; exact List.mem_cons_self _ _)
      · exact ⟨a, List.mem_cons_self _ _, hat⟩

/-- A corpus whose most frequent token is unique and whose vocabulary has at
least two tokens satisfies `total_count < count(t) · vocabulary_size`. -/
theorem length_lt_count_mul (tokens : List String) (t : String)
    (ht : t ∈ tokens)
    (hmax : ∀ t2 ∈ tokens, t2 ≠ t → tokens.count t2 < tokens.count t)
    (hV : 2 ≤ tokens.dedup.length) :
    tokens.length < tokens.count t * tokens.dedup.length := by
  have hsum : (tokens.dedup.map (fun x => tokens.count x)).sum = tokens.length :=
    List.sum_map_count_dedup_eq_length tokens
  have hle : ∀ y ∈ tokens.dedup.map (fun x => tokens.count x),
      y ≤ tokens.count t := by
    intro y hy
    rcases List.mem_map.mp hy with ⟨x, hx, rfl⟩
    by_cases hxt : x = t
    · subst hxt; exact le_rfl
    · exact (hmax x (List.mem_dedup.mp hx) hxt).le
  have hex : ∃ y ∈ tokens.dedup.map (fun x => tokens.count x),
      y < tokens.count t := by
    obtain ⟨x, hx, hxt⟩ :=
      exists_mem_ne_of_two_le_length (List.nodup_dedup tokens) hV t
    exact ⟨tokens.count x, List.mem_map.mpr ⟨x, hx, rfl⟩,
      hmax x (List.mem_dedup.mp hx) hxt⟩
  have := sum_lt_length_mul hle hex
  rw [hsum, List.length_map] at this
  calc tokens.length < tokens.dedup.length * tokens.count t := this
    _ = tokens.count t * tokens.dedup.length := Nat.mul_comm _ _

/-- Strict antitonicity of the Lidstone probability
`(c + k) / (T + k·V)` in `k` when `T < c·V`. -/
theorem lidstone_strict_anti {c T V : ℕ} (hT : 0 < T) (hcV : T < c * V)
    {k1 k2 : ℚ} (hk1 : 0 ≤ k1) (hk12 : k1 < k2) :
    ((c : ℚ) + k2) / ((T : ℚ) + k2 * (V : ℚ)) <
      ((c : ℚ) + k1) / ((T : ℚ) + k1 * (V : ℚ)) := by
  have hk2 : 0 < k2 := lt_of_le_of_lt hk1 hk12
  have hT' : (0 : ℚ) < T := by exact_mod_cast hT
  have hV' : (0 : ℚ) ≤ V := by positivity
  have hcV' : (T : ℚ) < c * V := by exact_mod_cast hcV
  have hd1 : (0 : ℚ) < T + k1 * V := by nlinarith
  have hd2 : (0 : ℚ) < T + k2 * V := by nlinarith
  rw [div_lt_div_iff₀ hd2 hd1]
  nlinarith [mul_pos (sub_pos.mpr hk12) (sub_pos.mpr hcV')]

/-- C8 (amended): for every non-empty corpus, every observed token's
probability is strictly positive whenever `smoothing_k > 0`; and whenever
the corpus has at least two distinct tokens and its most frequent token `t`
is unique (strictly more occurrences than every other token), the
probability the builder assigns to `t` is strictly decreasing in
`smoothing_k` over `[0, ∞)`. -/
theorem C8_smoothing_monotonicity (tokens : List String)
    (hne : tokens ≠ []) :
    (∀ t ∈ tokens,
      (∀ t2 ∈ tokens, t2 ≠ t → tokens.count t2 < tokens.count t) →
      2 ≤ tokens.dedup.length →
      ∀ k1 k2 : ℚ, 0 ≤ k1 → k1 < k2 →
      ∀ m1 m2 : List (String × ℚ), ∀ p1 p2 : ℚ,
        build_ref_dict tokens k1 = .ok m1 →
        build_ref_dict tokens k2 = .ok m2 →
        m1.lookup t = some p1 → m2.lookup t = some p2 → p2 < p1) ∧
    (∀ k : ℚ, 0 < k → ∀ m : List (String × ℚ),
      build_ref_dict tokens k = .ok m →
      ∀ t2 ∈ tokens, ∀ p : ℚ, m.lookup t2 = some p → 0 < p) := by
  have hT : 0 < tokens.length := List.length_pos.mpr hne
  constructor
  · intro t ht hmax hV k1 k2 hk1 hk12 m1 m2 p1 p2 hm1 hm2 hl1 hl2
    have hcV : tokens.length < tokens.count t * tokens.dedup.length :=
      length_lt_count_mul tokens t ht hmax hV
    have hk2 : 0 < k2 := lt_of_le_of_lt hk1 hk12
    rw [build_ref_dict_pos_eq tokens hk2 hne] at hm2
    have hm2' := (Except.ok.injEq _ _).mp hm2.symm
    have hp2 : p2 = ((tokens.count t : ℚ) + k2) /
        ((tokens.length : ℚ) + k2 * (tokens.dedup.length : ℚ)) := by
      rw [hm2', lookup_map_pair _ tokens.dedup t (List.mem_dedup.mpr ht)] at hl2
      exact (Option.some.injEq _ _).mp hl2.symm
    rcases eq_or_lt_of_le hk1 with hk10 | hk1pos
    · rw [← hk10] at hm1
      rw [build_ref_dict_zero_eq tokens hne] at hm1
      have hm1' := (Except.ok.injEq _ _).mp hm1.symm
      have hp1 : p1 = (tokens.count t : ℚ) / (tokens.length : ℚ) := by
        rw [hm1', lookup_map_pair _ tokens.dedup t (List.mem_dedup.mpr ht)] at hl1
        exact (Option.some.injEq _ _).mp hl1.symm
      have hmono := lidstone_strict_anti hT hcV hk1 hk12
      rw [← hk10] at hmono
      rw [hp1, hp2]
      simpa using hmono
    · rw [build_ref_dict_pos_eq tokens hk1pos hne] at hm1
      have hm1' := (Except.ok.injEq _ _).mp hm1.symm
      have hp1 : p1 = ((tokens.count t : ℚ) + k1) /
          ((tokens.length : ℚ) + k1 * (tokens.dedup.length : ℚ)) := by
        rw [hm1', lookup_map_pair _ tokens.dedup t (List.mem_dedup.mpr ht)] at hl1
        exact (Option.some.injEq _ _).mp hl1.symm
      rw [hp1, hp2]
      exact lidstone_strict_anti hT hcV hk1 hk12
  · intro k hk m hm t2 ht2 p hp
    rw [build_ref_dict_pos_eq tokens hk hne] at hm
    have hm' := (Except.ok.injEq _ _).mp hm.symm
    have hpv : p = ((tokens.count t2 : ℚ) + k) /
        ((tokens.length : ℚ) + k * (tokens.dedup.length : ℚ)) := by
      rw [hm', lookup_map_pair _ tokens.dedup t2 (List.mem_dedup.mpr ht2)] at hp
      exact (Option.some.injEq _ _).mp hp.symm
    have hc2 : 0 < tokens.count t2 := List.count_pos_iff.mpr ht2
    have hc2' : (0 : ℚ) < (tokens.count t2 : ℚ) := by exact_mod_cast hc2
    have hT' : (0 : ℚ) < (tokens.length : ℚ) := by exact_mod_cast hT
    have hV' : (0 : ℚ) ≤ (tokens.dedup.length : ℚ) := by positivity
    rw [hpv]
    apply div_pos
    · linarith
    · nlinarith

/-- Witness for C8 on the non-empty corpus `["a","a","b"]`, whose most
frequent token `"a"` is unique. -/
theorem C8_smoothing_monotonicity_witness :
    (∀ t ∈ ["a", "a", "b"],
      (∀ t2 ∈ ["a", "a", "b"], t2 ≠ t →
        List.count t2 ["a", "a", "b"] < List.count t ["a", "a", "b"]) →
      2 ≤ (["a", "a", "b"] : List String).dedup.length →
      ∀ k1 k2 : ℚ, 0 ≤ k1 → k1 < k2 →
      ∀ m1 m2 : List (String × ℚ), ∀ p1 p2 : ℚ,
        build_ref_dict ["a", "a", "b"] k1 = .ok m1 →
        build_ref_dict ["a", "a", "b"] k2 = .ok m2 →
        m1.lookup t = some p1 → m2.lookup t = some p2 → p2 < p1) ∧
    (∀ k : ℚ, 0 < k → ∀ m : List (String × ℚ),
      build_ref_dict ["a", "a", "b"] k = .ok m →
      ∀ t2 ∈ ["a", "a", "b"], ∀ p : ℚ, m.lookup t2 = some p → 0 < p) :=
  C8_smoothing_monotonicity ["a", "a", "b"] (by simp)

theorem EPSILON_pos : (0 : ℝ) < EPSILON := by unfold EPSILON; norm_num

theorem EPSILON_lt_one : EPSILON < (1 : ℝ) := by unfold EPSILON; norm_num

theorem clip_eq_self {x : ℝ} (h1 : EPSILON ≤ x) (h2 : x ≤ 1) : clip x = x := by
  unfold clip
  rw [max_eq_left h1, min_eq_left h2]

theorem clip_bounds (x : ℝ) : EPSILON ≤ clip x ∧ clip x ≤ 1 :=
  ⟨le_min (le_max_right x EPSILON) EPSILON_lt_one.le, min_le_right _ _⟩

/-- Every clipped surprisal value lies in `[0, -log EPSILON / log b]` for a
base `b > 1`. -/
theorem surprisal_val_bounds {b : ℝ} (hb : 1 < b) (p : ℝ) :
    0 ≤ -Real.log (clip p) / Real.log b ∧
      -Real.log (clip p) / Real.log b ≤ -Real.log EPSILON / Real.log b := by
  have hlb : 0 < Real.log b := Real.log_pos hb
  obtain ⟨h1, h2⟩ := clip_bounds p
  have hcp : 0 < clip p := lt_of_lt_of_le EPSILON_pos h1
  have hlognp : Real.log (clip p) ≤ 0 := Real.log_nonpos hcp.le h2
  have hlow : Real.log EPSILON ≤ Real.log (clip p) := Real.log_le_log EPSILON_pos h1
  constructor
  · exact div_nonneg (by linarith) hlb.le
  · exact (div_le_div_right hlb).mpr (by linarith)

theorem listMean_bounds {l : List ℝ} {lo hi : ℝ} (hne : l ≠ [])
    (h : ∀ x ∈ l, lo ≤ x ∧ x ≤ hi) :
    lo ≤ listMean l ∧ listMean l ≤ hi := by
  have hlen : 0 < (l.length : ℝ) := by
    have h0 : 0 < l.length := List.length_pos.mpr hne
    exact_mod_cast h0
  have hlow := List.card_nsmul_le_sum l lo (fun x hx => (h x hx).1)
  have hhigh := List.sum_le_card_nsmul l hi (fun x hx => (h x hx).2)
  rw [nsmul_eq_mul] at hlow hhigh
  unfold listMean
  constructor
  · rw [le_div_iff hlen]
    linarith
  · rw [div_le_iff hlen]
    linarith

theorem list_sum_nonpos {l : List ℝ} (h : ∀ x ∈ l, x ≤ 0) : l.sum ≤ 0 := by
  have := List.sum_le_card_nsmul l 0 h
  simpa using this

/-- `scipy.stats.entropy` is non-negative on positive weights when the base
exceeds one. -/
theorem scipyEntropy_nonneg {pk : List ℝ} {b : ℝ} (hb : 1 < b)
    (hpk : ∀ x ∈ pk, EPSILON ≤ x ∧ x ≤ 1) :
    0 ≤ scipyEntropy pk b := by
  have hlb : 0 < Real.log b := Real.log_pos hb
  unfold scipyEntropy
  dsimp only
  rcases eq_or_ne pk [] with hpe | hpe
  · subst hpe
    simp
  · have hnonneg : ∀ x ∈ pk, (0 : ℝ) ≤ x :=
      fun x hx => le_trans EPSILON_pos.le (hpk x hx).1
    have hsum_pos : 0 < pk.sum := by
      obtain ⟨x, hx⟩ := List.exists_mem_of_ne_nil pk hpe
      have hxle : x ≤ pk.sum := List.single_le_sum hnonneg x hx
      have : (0 : ℝ) < x := lt_of_lt_of_le EPSILON_pos (hpk x hx).1
      linarith
    have hterms : ∀ y ∈ pk.map (fun p => p / pk.sum * Real.log (p / pk.sum)),
        y ≤ 0 := by
      intro y hy
      rcases List.mem_map.mp hy with ⟨p, hp, rfl⟩
      have hq0 : 0 ≤ p / pk.sum := div_nonneg (hnonneg p hp) hsum_pos.le
      have hq1 : p / pk.sum ≤ 1 :=
        (div_le_one hsum_pos).mpr (List.single_le_sum hnonneg p hp)
      exact mul_nonpos_of_nonneg_of_nonpos hq0 (Real.log_nonpos hq0 hq1)
    have hs := list_sum_nonpos hterms
    exact div_nonneg (by linarith) hlb.le

/-- C10: Implicit surprisal bound from clipping: for every window, reference
table and `unknown_prob` (including `0` or values below `1e-10`), every
probability used in diff mode is clipped into `[1e-10, 1]` before the
logarithm, so for every log base `b > 1` every per-token surprisal lies in
`[0, -log_b(1e-10)]` and the reported mean surprisal lies in the same
interval. -/
theorem C10_surprisal_clipping_bound (tokens : List String)
    (rd : List (String × ℝ)) (b u : ℝ) (hb : 1 < b) :
    ∃ ss, surprisal_from_probs tokens rd b u = .ok ss ∧
      (∀ x ∈ ss, 0 ≤ x ∧ x ≤ -Real.logb b (1 / 10000000000)) ∧
      ∃ mv, surprisal_stats_from_ref tokens rd b u = .ok mv ∧
        0 ≤ mv.1 ∧ mv.1 ≤ -Real.logb b (1 / 10000000000) := by
  have hb0 : 0 < b := lt_trans one_pos hb
  have hb1 : b ≠ 1 := ne_of_gt hb
  have hlb : 0 < Real.log b := Real.log_pos hb
  have hBeq : -Real.logb b (1 / 10000000000) = -Real.log EPSILON / Real.log b := by
    rw [Real.logb, EPSILON, neg_div]
  have hB0 : 0 ≤ -Real.logb b (1 / 10000000000) := by
    rw [hBeq]
    have : Real.log EPSILON < 0 := Real.log_neg EPSILON_pos EPSILON_lt_one
    exact div_nonneg (by linarith) hlb.le
  have hbound : ∀ x ∈ tokens.map (fun t =>
      -Real.log (clip ((rd.lookup t).getD u)) / Real.log b),
      0 ≤ x ∧ x ≤ -Real.logb b (1 / 10000000000) := by
    intro x hx
    rcases List.mem_map.mp hx with ⟨t, _, rfl⟩
    rw [hBeq]
    exact surprisal_val_bounds hb _
  refine ⟨_, surprisal_from_probs_eq tokens rd u hb0 hb1, hbound, ?_⟩
  rcases eq_or_ne tokens [] with hne | hne
  · subst hne
    refine ⟨(0, 0), ?_, le_refl 0, hB0⟩
    unfold surprisal_stats_from_ref
    rw [surprisal_from_probs_eq [] rd u hb0 hb1, except_ok_bind]
    simp
  · refine ⟨_, surprisal_stats_from_ref_eq tokens rd u hb0 hb1 hne, ?_⟩
    have hmne : tokens.map (fun t =>
        -Real.log (clip ((rd.lookup t).getD u)) / Real.log b) ≠ [] := by
      simpa using hne
    exact listMean_bounds hmne hbound

/-- Witness for C10 at a concrete window, empty reference table,
`unknown_prob = 0` and base `2`. -/
theorem C10_surprisal_clipping_bound_witness :
    ∃ ss, surprisal_from_probs ["a"] [] 2 0 = .ok ss ∧
      (∀ x ∈ ss, 0 ≤ x ∧ x ≤ -Real.logb 2 (1 / 10000000000)) ∧
      ∃ mv, surprisal_stats_from_ref ["a"] [] 2 0 = .ok mv ∧
        0 ≤ mv.1 ∧ mv.1 ≤ -Real.logb 2 (1 / 10000000000) :=
  C10_surprisal_clipping_bound ["a"] [] 2 0 (by norm_num)

/-- C7 (amended): for every window of tokens and every log base `b > 1` the
Shannon entropy computed in raw mode is non-negative.  (For valid bases
strictly between `0` and `1` the computed entropy is non-positive and can be
negative, as the counterexample shows.) -/
theorem C7_entropy_nonneg (tokens : List String) {b : ℝ} (hb : 1 < b) :
    ∃ H, calculate_shannon_entropy tokens b = .ok H ∧ 0 ≤ H := by
  have hb0 : 0 < b := lt_trans one_pos hb
  have hb1 : b ≠ 1 := ne_of_gt hb
  unfold calculate_shannon_entropy
  rw [validate_log_base_ok hb0 hb1, except_ok_bind]
  by_cases he : tokens.isEmpty
  · rw [if_pos he]
    exact ⟨0, rfl, le_refl 0⟩
  · rw [if_neg he]
    dsimp only
    refine ⟨_, rfl, ?_⟩
    apply scipyEntropy_nonneg hb
    intro x hx
    rcases List.mem_map.mp hx with ⟨p, _, rfl⟩
    exact clip_bounds p

/-- Witness for the amended C7 at a concrete non-empty window and base. -/
theorem C7_entropy_nonneg_witness :
    ∃ H, calculate_shannon_entropy ["a", "b"] 2 = .ok H ∧ 0 ≤ H :=
  C7_entropy_nonneg ["a", "b"] (by norm_num)

/-- C7 counterexample: for the valid log base `1/2` (strictly between `0`
and `1`) the raw-mode Shannon entropy of the non-empty window `["a", "b"]`
is `-1`, which is negative — refuting non-negativity for every valid base. -/
theorem C7_counterexample :
    calculate_shannon_entropy ["a", "b"] (1 / 2) = .ok (-1) ∧
    ((-1 : ℝ) < 0) := by
  refine ⟨?_, by norm_num⟩
  unfold calculate_shannon_entropy
  rw [validate_log_base_ok (by norm_num) (by norm_num), except_ok_bind]
  rw [if_neg (by decide)]
  dsimp only
  have hd : (["a", "b"] : List String).dedup = ["a", "b"] := by decide
  rw [hd]
  have hca : List.count "a" ["a", "b"] = 1 := by decide
  have hcb : List.count "b" ["a", "b"] = 1 := by decide
  have hprobs : (["a", "b"] : List String).map
      (fun t => (List.count t ["a", "b"] : ℝ) / (["a", "b"] : List String).length) =
      [1 / 2, 1 / 2] := by
    simp [hca, hcb]
  rw [hprobs]
  have hclip : clip (1 / 2 : ℝ) = 1 / 2 :=
    clip_eq_self (by unfold EPSILON; norm_num) (by norm_num)
  have hclip2 : clip ((2 : ℝ)⁻¹) = (2 : ℝ)⁻¹ := by
    rw [show ((2 : ℝ))⁻¹ = 1 / 2 by norm_num]
    exact hclip
  have hmapclip : ([1 / 2, 1 / 2] : List ℝ).map clip = [1 / 2, 1 / 2] := by
    simp [hclip, hclip2]
  rw [hmapclip]
  have hlhalf : Real.log (1 / 2) ≠ 0 := by
    have : Real.log (1 / 2) < 0 := Real.log_neg (by norm_num) (by norm_num)
    linarith
  unfold scipyEntropy
  dsimp only
  norm_num
  rw [div_eq_iff hlhalf]
  ring

theorem clip_as_spec (x : ℝ) :
    clip x = min 1 (max (1 / 10000000000) x) := by
  unfold clip EPSILON
  rw [min_comm, max_comm]

theorem neg_log_div_eq_neg_logb (b p : ℝ) :
    -Real.log p / Real.log b = -Real.logb b p := by
  rw [Real.logb, neg_div]

theorem listMean_three (x y z : ℝ) : listMean [x, y, z] = (x + y + z) / 3 := by
  unfold listMean
  norm_num
  ring

/-- C6: Surprisal statistics in diff mode: each token's probability is looked
up in the table (absent tokens use `unknown_prob`), clipped into
`[1e-10, 1]`, per-token surprisal is `-log_b(p)`, the reported mean is the
arithmetic mean and the reported variance the population variance of those
same clipped surprisal values; in particular for the table
`a ↦ 1/2, b ↦ 3/10, c ↦ 1/5`, window `["a","b","c"]` and base `2`, the mean
surprisal equals `(-log2(1/2) - log2(3/10) - log2(1/5)) / 3`. -/
theorem C6_surprisal_statistics (tokens : List String)
    (rd : List (String × ℝ)) {b : ℝ} (u : ℝ)
    (hb : 0 < b) (hb1 : b ≠ 1) (hne : tokens ≠ []) :
    (∃ ss, surprisal_from_probs tokens rd b u = .ok ss ∧
      ss = tokens.map (fun t =>
        -Real.logb b (min 1 (max (1 / 10000000000) ((rd.lookup t).getD u)))) ∧
      surprisal_stats_from_ref tokens rd b u =
        .ok (ss.sum / ss.length,
          (ss.map (fun x => (x - ss.sum / ss.length) ^ 2)).sum /
            ss.length)) ∧
    ∃ v, surprisal_stats_from_ref ["a", "b", "c"]
        [("a", 1 / 2), ("b", 3 / 10), ("c", 1 / 5)] 2 (1 / 10000000000) =
      .ok ((-Real.logb 2 (1 / 2) + -Real.logb 2 (3 / 10) +
        -Real.logb 2 (1 / 5)) / 3, v) := by
  constructor
  · refine ⟨_, surprisal_from_probs_eq tokens rd u hb hb1, ?_, ?_⟩
    · simp only [clip_as_spec, neg_log_div_eq_neg_logb]
    · rw [surprisal_stats_from_ref_eq tokens rd u hb hb1 hne]
      rfl
  · have la : List.lookup "a"
        [("a", (1 / 2 : ℝ)), ("b", 3 / 10), ("c", 1 / 5)] = some (1 / 2) := rfl
    have lb : List.lookup "b"
        [("a", (1 / 2 : ℝ)), ("b", 3 / 10), ("c", 1 / 5)] = some (3 / 10) := rfl
    have lc : List.lookup "c"
        [("a", (1 / 2 : ℝ)), ("b", 3 / 10), ("c", 1 / 5)] = some (1 / 5) := rfl
    have hca : clip (1 / 2 : ℝ) = 1 / 2 :=
      clip_eq_self (by unfold EPSILON; norm_num) (by norm_num)
    have hcb : clip (3 / 10 : ℝ) = 3 / 10 :=
      clip_eq_self (by unfold EPSILON; norm_num) (by norm_num)
    have hcc : clip (1 / 5 : ℝ) = 1 / 5 :=
      clip_eq_self (by unfold EPSILON; norm_num) (by norm_num)
    have heval : (["a", "b", "c"] : List String).map (fun t =>
        -Real.log (clip ((List.lookup t
          [("a", (1 / 2 : ℝ)), ("b", 3 / 10), ("c", 1 / 5)]).getD
            (1 / 10000000000))) / Real.log 2) =
        [-Real.logb 2 (1 / 2), -Real.logb 2 (3 / 10), -Real.logb 2 (1 / 5)] := by
      simp only [List.map_cons, List.map_nil]
      rw [la, lb, lc, Option.getD_some, Option.getD_some, Option.getD_some,
        hca, hcb, hcc, neg_log_div_eq_neg_logb, neg_log_div_eq_neg_logb,
        neg_log_div_eq_neg_logb]
    refine ⟨listVar [-Real.logb 2 (1 / 2), -Real.logb 2 (3 / 10),
      -Real.logb 2 (1 / 5)], ?_⟩
    rw [surprisal_stats_from_ref_eq ["a", "b", "c"]
      [("a", 1 / 2), ("b", 3 / 10), ("c", 1 / 5)] (1 / 10000000000)
      (by norm_num) (by norm_num) (by simp), heval, listMean_three]

/-- Witness for C6 at a concrete window, table, base and unknown
probability. -/
theorem C6_surprisal_statistics_witness :
    (∃ ss, surprisal_from_probs ["a"] [("a", 1 / 2)] 2 1 = .ok ss ∧
      ss = (["a"] : List String).map (fun t =>
        -Real.logb 2 (min 1 (max (1 / 10000000000)
          ((List.lookup t [("a", (1 / 2 : ℝ))]).getD 1))) ) ∧
      surprisal_stats_from_ref ["a"] [("a", 1 / 2)] 2 1 =
        .ok (ss.sum / ss.length,
          (ss.map (fun x => (x - ss.sum / ss.length) ^ 2)).sum /
            ss.length)) ∧
    ∃ v, surprisal_stats_from_ref ["a", "b", "c"]
        [("a", 1 / 2), ("b", 3 / 10), ("c", 1 / 5)] 2 (1 / 10000000000) =
      .ok ((-Real.logb 2 (1 / 2) + -Real.logb 2 (3 / 10) +
        -Real.logb 2 (1 / 5)) / 3, v) :=
  C6_surprisal_statistics ["a"] [("a", 1 / 2)] 1 (by norm_num) (by norm_num)
    (by simp)
